import Mathlib

/-!
Verification of the Playwright plugin's script executor
(`src/plugins/playwright/run.js`) and dev-server detector
(`src/plugins/playwright/lib/helpers.js`).

The JavaScript is shallowly embedded: JS strings become `String`,
`String.prototype.includes` becomes a substring test on `String.data`,
the filesystem is a list of file names, `process` state is a record,
and each network probe's outcome is an explicit inductive value fed to
the detector through an oracle function.
-/

set_option maxRecDepth 1000000

namespace PlaywrightPlugin

/-- JS `String.prototype.includes sub`: substring containment test. -/
def jsIncludes (s sub : String) : Bool := decide (List.IsInfix sub.data s.data)

/-- Marker substring tested by `wrapCodeIfNeeded` (run.js line 111). -/
def requirePat : String := "require("

/-- First async-IIFE marker substring (run.js line 112). -/
def asyncPat1 : String := "(async () => \x7b"

/-- Second async-IIFE marker substring (run.js line 112). -/
def asyncPat2 : String := "(async()=>\x7b"

/-- Text of the full wrap template (run.js lines 121-127) before the
interpolated `code`: imports of the toolkit and the helper library,
then the async IIFE opening and `try`. -/
def fullTemplatePre : String := "\nconst \x7b chromium, firefox, webkit, devices \x7d = require(\x27playwright\x27);\nconst helpers = require(\x27./lib/helpers\x27);\n\n(async () => \x7b\n  try \x7b\n    "

/-- Text shared by both wrap templates after the interpolated `code`
(run.js lines 128-136 and 145-153): the catch handler printing the
message and stack and exiting non-zero. -/
def catchTemplatePost : String := "\n  \x7d catch (error) \x7b\n    console.error(\x27Automation error:\x27, error.message);\n    if (error.stack) \x7b\n      console.error(error.stack);\n    \x7d\n    process.exit(1);\n  \x7d\n\x7d)();\n"

/-- Text of the IIFE-only wrap template (run.js lines 141-144) before the
interpolated `code`. -/
def iifeTemplatePre : String := "\n(async () => \x7b\n  try \x7b\n    "

/-- run.js lines 109-157: `wrapCodeIfNeeded(code)`. -/
def wrapCodeIfNeeded (code : String) : String :=
  let hasRequire := jsIncludes code requirePat
  let hasAsyncIIFE := jsIncludes code asyncPat1 || jsIncludes code asyncPat2
  if hasRequire && hasAsyncIIFE then code
  else if !hasRequire then fullTemplatePre ++ code ++ catchTemplatePost
  else if !hasAsyncIIFE then iifeTemplatePre ++ code ++ catchTemplatePost
  else code

/-- Number of occurrences of `pat` as a contiguous sublist of `s`
(occurrences at each starting position; used to state "exactly one
entry wrapper appears in the normalized output"). -/
def countOcc (pat : List Char) : List Char → Nat
  | [] => 0
  | c :: rest => (if List.IsPrefix pat (c :: rest) then 1 else 0) + countOcc pat rest

/-- run.js lines 166-174: the ordered suggestion table of `formatError`,
in JS object-literal insertion order (which `Object.entries` preserves).
`dirname` stands for the `__dirname` interpolated into two hints. -/
def suggestionsTable (dirname : String) : List (String × String) :=
  [("Target closed", "The browser or page was closed unexpectedly. Check if the page navigation completed."),
   ("Timeout", "Operation timed out. Try increasing the timeout or check if the element exists."),
   ("Element is not visible", "The element exists but is hidden. Use \x7b force: true \x7d or wait for visibility."),
   ("Element is outside of the viewport", "Try scrolling to the element first with scrollIntoViewIfNeeded()."),
   ("net::ERR_CONNECTION_REFUSED", "Could not connect to the URL. Make sure the server is running."),
   ("Cannot find module", "Module not found. Run: cd " ++ dirname ++ " && npm install"),
   ("Executable doesn\x27t exist", "Browser not installed. Run: cd " ++ dirname ++ " && npm run setup")]

/-- run.js lines 176-182: the `for..of Object.entries(suggestions)` loop
body of `formatError`, returning on the first matching pattern. -/
def formatErrorLoop (message : String) : List (String × String) → String
  | [] => message
  | (pat, sug) :: rest =>
    if jsIncludes message pat then message ++ "\n\nSuggestion: " ++ sug
    else formatErrorLoop message rest

/-- run.js lines 162-183: `formatError`, applied to an error message
(line 163 extracts `error.message`); `dirname` models `__dirname`. -/
def formatError (dirname message : String) : String :=
  formatErrorLoop message (suggestionsTable dirname)

/-- Process-level inputs read by `getCodeToExecute` (run.js lines 52-81):
`argv` is `process.argv.slice(2)`, `fileExists` models `fs.existsSync`,
`readFile` models `fs.readFileSync` on the (resolved) path, `stdinTTY`
models `process.stdin.isTTY`, `stdinData` the piped standard input. -/
structure ProcState where
  argv : List String
  fileExists : String → Bool
  readFile : String → String
  stdinTTY : Bool
  stdinData : String

/-- Separator used by `args.join(' ')` (run.js line 65). -/
def spaceStr : String := " "

/-- run.js lines 52-81: `getCodeToExecute`; `.error ()` models the
usage-message path that calls `process.exit(1)`. Case 1 fires when an
argument exists and names an existing file, case 2 when arguments exist
but the first is not a file, case 3 when there are no arguments and
standard input is piped; otherwise the usage error. -/
def getCodeToExecute (st : ProcState) : Except Unit String :=
  match st.argv with
  | a :: _ =>
    if st.fileExists a = true then .ok (st.readFile a)
    else .ok (String.intercalate spaceStr st.argv)
  | [] =>
    if st.stdinTTY = false then .ok st.stdinData
    else .error ()

/-- Fixed prefix of every temp execution file name (run.js lines 89, 207). -/
def tempFilePre : String := ".temp-execution-"

/-- File extension required of temp execution files (run.js line 89). -/
def jsExt : String := ".js"

/-- run.js line 89: the filter selecting stale temp files in the
executor's directory; JS `startsWith`/`endsWith` are the prefix and
suffix tests on the name's characters. -/
def isTempFileName (name : String) : Bool :=
  decide (List.IsPrefix tempFilePre.data name.data) &&
    decide (List.IsSuffix jsExt.data name.data)

/-- run.js lines 86-104: `cleanupOldTempFiles`, over a directory modelled
as a list of file names. `unlinkFails f = true` models `fs.unlinkSync f`
throwing, which the inner try/catch ignores, leaving `f` in place while
the pass continues with the remaining files. -/
def cleanupOldTempFiles (unlinkFails : String → Bool) (files : List String) : List String :=
  files.filter (fun f => if isTempFileName f = true then unlinkFails f else true)

/-- run.js line 207: the fresh temp file name built from `Date.now()`. -/
def tempFileName (ts : Nat) : String := tempFilePre ++ toString ts ++ jsExt

/-- run.js line 211: `fs.writeFileSync` on a directory modelled as a list
of file names (creating or overwriting `name`). -/
def writeFile (name : String) (files : List String) : List String :=
  name :: files.filter (fun f => f ≠ name)

/-- run.js lines 188-228: the filesystem- and input-relevant behavior of
`main` for one invocation: cleanup runs first, then the toolkit check
(`pwInstalled` models `checkPlaywrightInstalled()`, `installOk` the
result of `installPlaywright()`), then input resolution, then the
normalized unit is written to the fresh temp path. The first component
is the resulting directory listing, the second the written execution
unit (`none` when the invocation exited before writing). -/
def mainRun (pwInstalled installOk : Bool) (st : ProcState) (unlinkFails : String → Bool)
    (ts : Nat) (files : List String) : List String × Option String :=
  let cleaned := cleanupOldTempFiles unlinkFails files
  if pwInstalled = false ∧ installOk = false then (cleaned, none)
  else
    match getCodeToExecute st with
    | .error _ => (cleaned, none)
    | .ok raw => (writeFile (tempFileName ts) cleaned, some (wrapCodeIfNeeded raw))

/-- helpers.js line 105: the hardcoded baseline port list. -/
def commonPorts : List Nat := [3000, 3001, 3002, 5173, 5174, 8080, 8000, 4200, 5000, 9000, 1234, 4321, 3333]

/-- JS `[...new Set(l)]`: deduplication keeping the first occurrence of
each element, in insertion order. -/
def jsSetDedup (l : List Nat) : List Nat :=
  l.foldl (fun acc x => if x ∈ acc then acc else acc ++ [x]) []

/-- helpers.js line 106: the candidate port list probed by
`detectDevServers`. -/
def allPorts (customPorts : List Nat) : List Nat :=
  jsSetDedup (commonPorts ++ customPorts)

/-- Outcome of one HEAD probe against one port: a response with a status
code, a connection-level failure (refusal/reset, surfacing as the
request's `error` event), or expiry of the 500 ms request timeout. -/
inductive ProbeOutcome where
  | response (statusCode : Nat)
  | connError
  | timeout
deriving DecidableEq

/-- helpers.js lines 113-134: the per-port probe promise. The `Except`
error channel models promise rejection; every outcome path calls
`resolve` (the response handler for any status code, the `error`
handler, and the `timeout` handler after `req.destroy()`), so no arm
ever produces `.error` — a probe failure can never raise. The payload
records whether the port was pushed onto `detectedServers`
(`res.statusCode < 500`). -/
def probeStep : ProbeOutcome → Except String Bool
  | .response s => .ok (decide (s < 500))
  | .connError => .ok false
  | .timeout => .ok false

/-- The boolean classification of one probe outcome: reachable iff the
probe yielded a response with status code below 500. -/
def classifyProbe : ProbeOutcome → Bool
  | .response s => decide (s < 500)
  | .connError => false
  | .timeout => false

/-- helpers.js line 122: the URL string pushed for a reachable port. -/
def urlOf (port : Nat) : String := "http://localhost:" ++ toString port

/-- helpers.js lines 111-138: the sequential `for (const port of allPorts)`
loop; `acc` is the `detectedServers` array. A rejected probe promise
would be caught by the surrounding `try/catch` and skipped (the
`.error` arm), so the loop never propagates a probe failure. -/
def detectLoop (probe : Nat → ProbeOutcome) : List Nat → List String → List String
  | [], acc => acc
  | p :: rest, acc =>
    match probeStep (probe p) with
    | .ok true => detectLoop probe rest (acc ++ [urlOf p])
    | .ok false => detectLoop probe rest acc
    | .error _ => detectLoop probe rest acc

/-- helpers.js lines 104-145: `detectDevServers`, with the network
abstracted as an oracle giving each port's probe outcome. -/
def detectDevServers (probe : Nat → ProbeOutcome) (customPorts : List Nat) : List String :=
  detectLoop probe (allPorts customPorts) []

/-- helpers.js line 119: the per-request timeout in milliseconds. -/
def PROBE_TIMEOUT : Nat := 500

/-- Wall-clock cost of one probe, given the time `delay` (ms) at which the
server's response or connection failure would arrive: the probe's
promise resolves at that moment, or is destroyed at the 500 ms timeout,
whichever is first. -/
def probeDuration (delay : Nat) : Nat := min delay PROBE_TIMEOUT

/-- Wall-clock cost of one whole scan: helpers.js lines 111-138 `await`
each probe in sequence inside the `for` loop, so the scan's duration is
the sum of the individual probe durations. -/
def scanDuration (delay : Nat → Nat) (customPorts : List Nat) : Nat :=
  ((allPorts customPorts).map (fun p => probeDuration (delay p))).sum

/-! Helper lemmas about substring containment and occurrence counting. -/

lemma jsIncludes_eq_true {s sub : String} :
    jsIncludes s sub = true ↔ List.IsInfix sub.data s.data := by
  simp [jsIncludes]

lemma jsIncludes_eq_false {s sub : String} :
    jsIncludes s sub = false ↔ ¬ List.IsInfix sub.data s.data := by
  simp [jsIncludes]

lemma contig_cons (a : Char) {l m : List Char} (h : List.IsInfix l m) :
    List.IsInfix l (a :: m) := by
  obtain ⟨s, t, rfl⟩ := h
  exact ⟨a :: s, t, rfl⟩

lemma contig_of_pre {l m : List Char} (h : List.IsPrefix l m) : List.IsInfix l m := by
  obtain ⟨t, rfl⟩ := h
  exact ⟨[], t, rfl⟩

lemma contig_append_r {l m : List Char} (r : List Char) (h : List.IsInfix l m) :
    List.IsInfix l (m ++ r) := by
  obtain ⟨s, t, rfl⟩ := h
  exact ⟨s, t ++ r, by simp⟩

lemma contig_append_l {l m : List Char} (r : List Char) (h : List.IsInfix l m) :
    List.IsInfix l (r ++ m) := by
  obtain ⟨s, t, rfl⟩ := h
  exact ⟨r ++ s, t, by simp⟩

lemma preAppend (u v : List Char) : List.IsPrefix u (u ++ v) := ⟨v, rfl⟩

lemma preOfPreLenLe {l₁ l₂ l₃ : List Char} (h1 : List.IsPrefix l₁ l₃)
    (h2 : List.IsPrefix l₂ l₃) (hle : l₁.length ≤ l₂.length) : List.IsPrefix l₁ l₂ :=
  List.prefix_of_prefix_length_le h1 h2 hle

lemma preIffTake {l₁ l₂ : List Char} :
    List.IsPrefix l₁ l₂ ↔ l₁ = List.take l₁.length l₂ :=
  List.prefix_iff_eq_take

lemma preCancel {l l₁ l₂ : List Char} (h : List.IsPrefix (l ++ l₁) (l ++ l₂)) :
    List.IsPrefix l₁ l₂ :=
  ( List.prefix_append_right_inj l).mp h

lemma countOcc_nil (pat : List Char) : countOcc pat [] = 0 := rfl

lemma countOcc_cons (pat : List Char) (c : Char) (rest : List Char) :
    countOcc pat (c :: rest) =
      (if List.IsPrefix pat (c :: rest) then 1 else 0) + countOcc pat rest := rfl

lemma countOcc_zero_of_not_contig {pat : List Char} {s : List Char}
    (h : ¬ List.IsInfix pat s) : countOcc pat s = 0 := by
  induction s with
  | nil => rfl
  | cons c rest ih =>
    rw [countOcc_cons, if_neg (fun hp => h (contig_of_pre hp)),
      ih (fun hc => h (contig_cons c hc))]

/-- Occurrence counting distributes over append when no occurrence of
`pat` can straddle the boundary: for each split of `pat` into a
nonempty proper prefix and the rest, either that prefix is not a suffix
of `a` or the rest is not a prefix of `b`. -/
lemma countOcc_append {pat : List Char} (a : List Char) {b : List Char}
    (h : ∀ k, 0 < k → k < pat.length →
      ¬ List.IsSuffix (List.take k pat) a ∨ ¬ List.IsPrefix (List.drop k pat) b) :
    countOcc pat (a ++ b) = countOcc pat a + countOcc pat b := by
  induction a with
  | nil => simp [countOcc_nil]
  | cons x a' ih =>
    have h' : ∀ k, 0 < k → k < pat.length →
        ¬ List.IsSuffix (List.take k pat) a' ∨ ¬ List.IsPrefix (List.drop k pat) b := by
      intro k hk1 hk2
      rcases h k hk1 hk2 with hs | hp
      · exact Or.inl (fun hsa => hs (hsa.trans (List.suffix_cons x a')))
      · exact Or.inr hp
    have hhead : List.IsPrefix pat ((x :: a') ++ b) ↔ List.IsPrefix pat (x :: a') := by
      constructor
      · intro hp
        by_cases hlen : pat.length ≤ (x :: a').length
        · rw [preIffTake] at hp ⊢
          calc pat = List.take pat.length ((x :: a') ++ b) := hp
            _ = List.take pat.length (x :: a') ++
                List.take (pat.length - (x :: a').length) b :=
              List.take_append_eq_append_take
            _ = List.take pat.length (x :: a') := by
              rw [Nat.sub_eq_zero_of_le hlen, List.take_zero, List.append_nil]
        · push_neg at hlen
          have hxa : List.IsPrefix (x :: a') pat :=
            preOfPreLenLe (preAppend (x :: a') b) hp (le_of_lt hlen)
          obtain ⟨tail, htail⟩ := hxa
          have htake : List.take (x :: a').length pat = x :: a' := by
            rw [← htail, List.take_left]
          have hdrop : List.IsPrefix tail b := by
            have hp2 : List.IsPrefix ((x :: a') ++ tail) ((x :: a') ++ b) := by
              rw [htail]
              exact hp
            exact preCancel hp2
          have hk1 : 0 < (x :: a').length := by simp
          rcases h (x :: a').length hk1 hlen with hs | hnp
          · exact absurd (by rw [htake]) hs
          · refine absurd ?_ hnp
            rw [← htail, List.drop_left]
            exact hdrop
      · intro hp
        exact hp.trans (preAppend (x :: a') b)
    rw [List.cons_append, countOcc_cons, ← List.cons_append, if_congr hhead rfl rfl,
      ih h', countOcc_cons pat x a']
    omega

lemma wrap_ne_self {pre post : String} (code : String) (h : 0 < pre.length) :
    pre ++ code ++ post ≠ code := by
  intro he
  have hlen := congrArg String.length he
  rw [String.length_append, String.length_append] at hlen
  omega

lemma formatErrorLoop_no_match {message : String} {tbl : List (String × String)}
    (h : ∀ p ∈ tbl, jsIncludes message p.1 = false) :
    formatErrorLoop message tbl = message := by
  induction tbl with
  | nil => rfl
  | cons hd rest ih =>
    obtain ⟨pat, sug⟩ := hd
    have h0 : jsIncludes message pat = false := h (pat, sug) (by simp)
    simp only [formatErrorLoop, h0, Bool.false_eq_true, if_false]
    exact ih (fun p hp => h p (by simp [hp]))

lemma formatErrorLoop_first_match {message : String} :
    ∀ {tbl : List (String × String)} (i : Nat) (hi : i < tbl.length),
      jsIncludes message (tbl.get ⟨i, hi⟩).1 = true →
      (∀ j (hj : j < i), jsIncludes message (tbl.get ⟨j, hj.trans hi⟩).1 = false) →
      formatErrorLoop message tbl =
        message ++ "\n\nSuggestion: " ++ (tbl.get ⟨i, hi⟩).2 := by
  intro tbl
  induction tbl with
  | nil => intro i hi; simp at hi
  | cons hd rest ih =>
    intro i hi hmatch hprev
    obtain ⟨pat, sug⟩ := hd
    cases i with
    | zero =>
      simp only [List.get] at hmatch ⊢
      simp [formatErrorLoop, hmatch]
    | succ i' =>
      have h0 : jsIncludes message pat = false := by
        simpa using hprev 0 (Nat.succ_pos i')
      simp only [formatErrorLoop, h0, Bool.false_eq_true, if_false, List.get] at *
      exact ih i' (Nat.lt_of_succ_lt_succ hi) hmatch
        (fun j hj => hprev (j + 1) (Nat.succ_lt_succ hj))

lemma probeStep_eq (o : ProbeOutcome) : probeStep o = .ok (classifyProbe o) := by
  cases o <;> rfl

lemma detectLoop_eq (probe : Nat → ProbeOutcome) :
    ∀ (ports : List Nat) (acc : List String),
      detectLoop probe ports acc =
        acc ++ (ports.filter (fun p => classifyProbe (probe p))).map urlOf := by
  intro ports
  induction ports with
  | nil => intro acc; simp [detectLoop]
  | cons p rest ih =>
    intro acc
    cases hc : classifyProbe (probe p) with
    | true =>
      have hstep : detectLoop probe (p :: rest) acc =
          detectLoop probe rest (acc ++ [urlOf p]) := by
        simp [detectLoop, probeStep_eq, hc]
      rw [hstep, ih]
      simp [List.filter_cons, hc]
    | false =>
      have hstep : detectLoop probe (p :: rest) acc = detectLoop probe rest acc := by
        simp [detectLoop, probeStep_eq, hc]
      rw [hstep, ih]
      simp [List.filter_cons, hc]

lemma jsSetDedup_fold_mem (l : List Nat) :
    ∀ (acc : List Nat) (y : Nat),
      (y ∈ List.foldl (fun acc x => if x ∈ acc then acc else acc ++ [x]) acc l) ↔
        (y ∈ acc ∨ y ∈ l) := by
  induction l with
  | nil => intro acc y; simp
  | cons a t ih =>
    intro acc y
    simp only [List.foldl_cons]
    by_cases ha : a ∈ acc
    · rw [if_pos ha, ih]
      simp only [List.mem_cons]
      constructor
      · rintro (h | h)
        · exact Or.inl h
        · exact Or.inr (Or.inr h)
      · rintro (h | rfl | h)
        · exact Or.inl h
        · exact Or.inl ha
        · exact Or.inr h
    · rw [if_neg ha, ih]
      simp only [List.mem_append, List.mem_cons, List.mem_singleton]
      tauto

lemma jsSetDedup_fold_nodup (l : List Nat) :
    ∀ (acc : List Nat), acc.Nodup →
      (List.foldl (fun acc x => if x ∈ acc then acc else acc ++ [x]) acc l).Nodup := by
  induction l with
  | nil => intro acc h; simpa
  | cons a t ih =>
    intro acc h
    simp only [List.foldl_cons]
    by_cases ha : a ∈ acc
    · rw [if_pos ha]
      exact ih acc h
    · rw [if_neg ha]
      refine ih _ ?_
      simp [List.nodup_append, h, ha]

lemma allPorts_nodup (customPorts : List Nat) : (allPorts customPorts).Nodup :=
  jsSetDedup_fold_nodup _ [] List.nodup_nil

lemma allPorts_mem (customPorts : List Nat) (p : Nat) :
    p ∈ allPorts customPorts ↔ (p ∈ commonPorts ∨ p ∈ customPorts) := by
  unfold allPorts jsSetDedup
  rw [jsSetDedup_fold_mem]
  simp

lemma sum_map_le_mul {l : List Nat} {f : Nat → Nat} {c : Nat} (h : ∀ x ∈ l, f x ≤ c) :
    (l.map f).sum ≤ c * l.length := by
  induction l with
  | nil => simp
  | cons a t ih =>
    have h1 := h a (List.mem_cons_self a t)
    have h2 := ih (fun x hx => h x (List.mem_cons_of_mem a hx))
    simp only [List.map_cons, List.sum_cons, List.length_cons, Nat.mul_succ]
    omega

lemma mem_cleanup {unlinkFails : String → Bool} {files : List String} {f : String} :
    f ∈ cleanupOldTempFiles unlinkFails files ↔
      f ∈ files ∧ (if isTempFileName f = true then unlinkFails f else true) = true := by
  unfold cleanupOldTempFiles
  exact List.mem_filter

lemma cleanup_no_temp {unlinkFails : String → Bool} {files : List String}
    (hff : ∀ g, unlinkFails g = false) {f : String}
    (hf : f ∈ cleanupOldTempFiles unlinkFails files) : isTempFileName f = false := by
  rcases mem_cleanup.mp hf with ⟨-, hcond⟩
  by_cases ht : isTempFileName f = true
  · rw [if_pos ht, hff f] at hcond
    exact absurd hcond (by simp)
  · simpa using ht

lemma isTemp_tempFileName (ts : Nat) : isTempFileName (tempFileName ts) = true := by
  unfold isTempFileName tempFileName
  simp only [Bool.and_eq_true, decide_eq_true_eq]
  constructor
  · refine ⟨(toString ts).data ++ jsExt.data, ?_⟩
    rw [String.data_append, String.data_append, List.append_assoc]
  · refine ⟨tempFilePre.data ++ (toString ts).data, ?_⟩
    rw [String.data_append, String.data_append]

/-! Branch lemmas for `wrapCodeIfNeeded` and closed occurrence facts. -/

lemma wrap_branch_full {code : String} (hr : jsIncludes code requirePat = false) :
    wrapCodeIfNeeded code = fullTemplatePre ++ code ++ catchTemplatePost := by
  simp [wrapCodeIfNeeded, hr]

lemma wrap_branch_pass {code : String} (hr : jsIncludes code requirePat = true)
    (hi : jsIncludes code asyncPat1 = true ∨ jsIncludes code asyncPat2 = true) :
    wrapCodeIfNeeded code = code := by
  rcases hi with h | h <;> simp [wrapCodeIfNeeded, hr, h]

lemma wrap_branch_iife {code : String} (hr : jsIncludes code requirePat = true)
    (h1 : jsIncludes code asyncPat1 = false) (h2 : jsIncludes code asyncPat2 = false) :
    wrapCodeIfNeeded code = iifeTemplatePre ++ code ++ catchTemplatePost := by
  simp [wrapCodeIfNeeded, hr, h1, h2]

lemma noStraddlePre_p1 : ∀ k, k < asyncPat1.data.length → 0 < k →
    ¬ List.IsSuffix (List.take k asyncPat1.data) fullTemplatePre.data := by decide

lemma noStraddlePost_p1 : ∀ k, k < asyncPat1.data.length → 0 < k →
    ¬ List.IsPrefix (List.drop k asyncPat1.data) catchTemplatePost.data := by decide

lemma noStraddlePre_p2 : ∀ k, k < asyncPat2.data.length → 0 < k →
    ¬ List.IsSuffix (List.take k asyncPat2.data) fullTemplatePre.data := by decide

lemma noStraddlePost_p2 : ∀ k, k < asyncPat2.data.length → 0 < k →
    ¬ List.IsPrefix (List.drop k asyncPat2.data) catchTemplatePost.data := by decide

lemma countOcc_p1_pre : countOcc asyncPat1.data fullTemplatePre.data = 1 := by decide

lemma countOcc_p2_pre : countOcc asyncPat2.data fullTemplatePre.data = 0 := by decide

lemma countOcc_p1_post : countOcc asyncPat1.data catchTemplatePost.data = 0 := by decide

lemma countOcc_p2_post : countOcc asyncPat2.data catchTemplatePost.data = 0 := by decide

/-- The toolkit import line of the full template (run.js line 122). -/
def playwrightImport : String := "const \x7b chromium, firefox, webkit, devices \x7d = require(\x27playwright\x27);"

/-- The helper-library import line of the full template (run.js line 123). -/
def helpersImport : String := "const helpers = require(\x27./lib/helpers\x27);"

/-- Example source: an async entry wrapper with no import statements. -/
def c1ex : String := "(async () => \x7b\n  await page.click(\x27#go\x27);\n\x7d)();\n"

/-- Example source: both an import statement and an entry wrapper. -/
def c4ex : String := "const pw = require(\x27playwright\x27);\n(async () => \x7b await run(); \x7d)();\n"

/-- Example source: bare automation statements, no imports, no wrapper. -/
def c5ex : String := "await page.goto(\x27http://localhost:3000\x27);"

/-- Example source: an import statement plus an async arrow entry whose
spacing (`(async () =>` directly followed by the brace) matches neither
of the two exact marker substrings. -/
def c10ex : String := "const pw = require(\x27playwright\x27);\n(async () =>\x7b await go(); \x7d)();\n"

/-- Example source: the `require(` marker appears only inside a comment,
yet the normalizer still counts it as an import. -/
def c10cmt : String := "// comment mentioning require( here\n(async () => \x7b\n  await page.reload();\n\x7d)();\n"

/-- C4: for every source text that already contains both an import
statement (the `require(` marker) and an asynchronous entry wrapper
(either async-IIFE marker), `wrapCodeIfNeeded` returns the input
unchanged byte-for-byte. -/
theorem claim_C4 (code : String)
    (hreq : jsIncludes code requirePat = true)
    (hiife : jsIncludes code asyncPat1 = true ∨ jsIncludes code asyncPat2 = true) :
    wrapCodeIfNeeded code = code :=
  wrap_branch_pass hreq hiife

/-- Witness for C4 at a concrete self-contained source. -/
theorem claim_C4_witness : wrapCodeIfNeeded c4ex = c4ex :=
  claim_C4 c4ex (by decide) (Or.inl (by decide))

/-- C1 counterexample: a source with an async entry wrapper but no
imports is not passed through unchanged — `wrapCodeIfNeeded` rewrites
it. -/
theorem claim_C1_counterexample :
    jsIncludes c1ex asyncPat1 = true ∧ jsIncludes c1ex requirePat = false ∧
      wrapCodeIfNeeded c1ex ≠ c1ex := by
  refine ⟨by decide, by decide, by decide⟩

/-- C1 (amended): for every source text that contains an asynchronous
entry wrapper but no import statements, `wrapCodeIfNeeded` does not
pass it through; it wraps it in the full template, adding the toolkit
and helper imports and a new entry wrapper around the source. -/
theorem claim_C1 (code : String)
    (_hiife : jsIncludes code asyncPat1 = true ∨ jsIncludes code asyncPat2 = true)
    (hreq : jsIncludes code requirePat = false) :
    wrapCodeIfNeeded code = fullTemplatePre ++ code ++ catchTemplatePost :=
  wrap_branch_full hreq

/-- Witness for the amended C1 at a concrete wrapper-only source. -/
theorem claim_C1_witness :
    wrapCodeIfNeeded c1ex = fullTemplatePre ++ c1ex ++ catchTemplatePost :=
  claim_C1 c1ex (Or.inl (by decide)) (by decide)

/-- C5: for every source text containing neither import statements nor
an asynchronous entry wrapper, the normalized output is the full
template around the source: it contains the toolkit import line and the
helper-library import line, contains exactly one async entry-wrapper
marker in total, and contains the original source verbatim. -/
theorem claim_C5 (code : String)
    (hreq : jsIncludes code requirePat = false)
    (h1 : jsIncludes code asyncPat1 = false)
    (h2 : jsIncludes code asyncPat2 = false) :
    wrapCodeIfNeeded code = fullTemplatePre ++ code ++ catchTemplatePost
    ∧ jsIncludes (wrapCodeIfNeeded code) playwrightImport = true
    ∧ jsIncludes (wrapCodeIfNeeded code) helpersImport = true
    ∧ countOcc asyncPat1.data (wrapCodeIfNeeded code).data
        + countOcc asyncPat2.data (wrapCodeIfNeeded code).data = 1
    ∧ List.IsInfix code.data (wrapCodeIfNeeded code).data := by
  have hw : wrapCodeIfNeeded code = fullTemplatePre ++ code ++ catchTemplatePost :=
    wrap_branch_full hreq
  rw [hw]
  have hdata : (fullTemplatePre ++ code ++ catchTemplatePost).data
      = fullTemplatePre.data ++ (code.data ++ catchTemplatePost.data) := by
    rw [String.data_append, String.data_append, List.append_assoc]
  refine ⟨rfl, ?_, ?_, ?_, ?_⟩
  · rw [jsIncludes_eq_true, hdata]
    exact contig_append_r _ (by decide)
  · rw [jsIncludes_eq_true, hdata]
    exact contig_append_r _ (by decide)
  · have e1 : countOcc asyncPat1.data (fullTemplatePre ++ code ++ catchTemplatePost).data
        = countOcc asyncPat1.data fullTemplatePre.data
          + (countOcc asyncPat1.data code.data
            + countOcc asyncPat1.data catchTemplatePost.data) := by
      rw [hdata,
        countOcc_append fullTemplatePre.data
          (fun k hk1 hk2 => Or.inl (noStraddlePre_p1 k hk2 hk1)),
        countOcc_append code.data
          (fun k hk1 hk2 => Or.inr (noStraddlePost_p1 k hk2 hk1))]
    have e2 : countOcc asyncPat2.data (fullTemplatePre ++ code ++ catchTemplatePost).data
        = countOcc asyncPat2.data fullTemplatePre.data
          + (countOcc asyncPat2.data code.data
            + countOcc asyncPat2.data catchTemplatePost.data) := by
      rw [hdata,
        countOcc_append fullTemplatePre.data
          (fun k hk1 hk2 => Or.inl (noStraddlePre_p2 k hk2 hk1)),
        countOcc_append code.data
          (fun k hk1 hk2 => Or.inr (noStraddlePost_p2 k hk2 hk1))]
    have z1 : countOcc asyncPat1.data code.data = 0 :=
      countOcc_zero_of_not_contig (jsIncludes_eq_false.mp h1)
    have z2 : countOcc asyncPat2.data code.data = 0 :=
      countOcc_zero_of_not_contig (jsIncludes_eq_false.mp h2)
    rw [e1, e2, z1, z2, countOcc_p1_pre, countOcc_p2_pre, countOcc_p1_post, countOcc_p2_post]
  · rw [hdata]
    exact contig_append_l _ (contig_of_pre (preAppend _ _))

/-- Witness for C5 at a concrete bare source. -/
theorem claim_C5_witness :
    wrapCodeIfNeeded c5ex = fullTemplatePre ++ c5ex ++ catchTemplatePost
    ∧ jsIncludes (wrapCodeIfNeeded c5ex) playwrightImport = true
    ∧ jsIncludes (wrapCodeIfNeeded c5ex) helpersImport = true
    ∧ countOcc asyncPat1.data (wrapCodeIfNeeded c5ex).data
        + countOcc asyncPat2.data (wrapCodeIfNeeded c5ex).data = 1
    ∧ List.IsInfix c5ex.data (wrapCodeIfNeeded c5ex).data :=
  claim_C5 c5ex (by decide) (by decide) (by decide)

/-- C10: `wrapCodeIfNeeded`'s two markers are pure substring tests —
the source passes through unchanged exactly when it contains the
`require(` substring and one of the two exact async-IIFE substrings;
any source with `require(` whose async arrow entry uses other spacing
falls into the wrapper-only branch and gets a second entry wrapper
around it; a `require(` inside a comment still counts as an import. -/
theorem claim_C10 :
    (∀ code : String, wrapCodeIfNeeded code = code ↔
      (jsIncludes code requirePat = true ∧
        (jsIncludes code asyncPat1 = true ∨ jsIncludes code asyncPat2 = true)))
    ∧ (∀ code : String, jsIncludes code requirePat = true →
        jsIncludes code asyncPat1 = false → jsIncludes code asyncPat2 = false →
        wrapCodeIfNeeded code = iifeTemplatePre ++ code ++ catchTemplatePost)
    ∧ jsIncludes c10ex requirePat = true
    ∧ jsIncludes c10ex asyncPat1 = false
    ∧ jsIncludes c10ex asyncPat2 = false
    ∧ wrapCodeIfNeeded c10ex = iifeTemplatePre ++ c10ex ++ catchTemplatePost
    ∧ wrapCodeIfNeeded c10ex ≠ c10ex
    ∧ jsIncludes c10cmt requirePat = true
    ∧ wrapCodeIfNeeded c10cmt = c10cmt := by
  refine ⟨?_, ?_, by decide, by decide, by decide, by decide, by decide, by decide, by decide⟩
  · intro code
    constructor
    · intro heq
      by_cases hr : jsIncludes code requirePat = true
      · by_cases hp1 : jsIncludes code asyncPat1 = true
        · exact ⟨hr, Or.inl hp1⟩
        · by_cases hp2 : jsIncludes code asyncPat2 = true
          · exact ⟨hr, Or.inr hp2⟩
          · have hw := wrap_branch_iife hr (by simpa using hp1) (by simpa using hp2)
            rw [hw] at heq
            exact absurd heq (wrap_ne_self code (by decide))
      · have hr' : jsIncludes code requirePat = false := by simpa using hr
        have hw := wrap_branch_full hr'
        rw [hw] at heq
        exact absurd heq (wrap_ne_self code (by decide))
    · rintro ⟨hr, hi⟩
      exact wrap_branch_pass hr hi
  · intro code hr h1 h2
    exact wrap_branch_iife hr h1 h2

/-- Witness for C10's wrapper-only conjunct at the odd-spacing source. -/
theorem claim_C10_witness :
    wrapCodeIfNeeded c10ex = iifeTemplatePre ++ c10ex ++ catchTemplatePost :=
  claim_C10.2.1 c10ex (by decide) (by decide) (by decide)

/-- C6: `formatError` checks the message against the fixed ordered list
of (substring pattern, hint) pairs, first match wins: when no pattern
is a substring of the message the raw message is returned unchanged;
when the first matching pattern sits at index `i`, the result is the
message with that entry's suggestion appended. -/
theorem claim_C6 (dirname message : String) :
    ((∀ p ∈ suggestionsTable dirname, jsIncludes message p.1 = false) →
      formatError dirname message = message)
    ∧ (∀ i, ∀ hi : i < (suggestionsTable dirname).length,
        jsIncludes message ((suggestionsTable dirname).get ⟨i, hi⟩).1 = true →
        (∀ j, ∀ hj : j < i,
          jsIncludes message ((suggestionsTable dirname).get ⟨j, hj.trans hi⟩).1 = false) →
        formatError dirname message =
          message ++ "\n\nSuggestion: " ++ ((suggestionsTable dirname).get ⟨i, hi⟩).2) := by
  constructor
  · intro h
    exact formatErrorLoop_no_match h
  · intro i hi hmatch hprev
    exact formatErrorLoop_first_match i hi hmatch hprev

/-- Directory used to instantiate `__dirname` in the C6 witness. -/
def fmtDir : String := "/plugin"

/-- Message matching the table's second pattern and no earlier one. -/
def fmtMsg : String := "Navigation Timeout exceeded"

/-- Witness for C6: the timeout pattern, at index 1, is the first match. -/
theorem claim_C6_witness :
    formatError fmtDir fmtMsg =
      fmtMsg ++ "\n\nSuggestion: " ++ ((suggestionsTable fmtDir).get ⟨1, by decide⟩).2 := by
  refine (claim_C6 fmtDir fmtMsg).2 1 (by decide) (by decide) ?_
  intro j hj
  have hj0 : j = 0 := by omega
  subst hj0
  show jsIncludes fmtMsg ((suggestionsTable fmtDir).get ⟨0, by decide⟩).1 = false
  decide

/-- C7: input resolution tries, in order, existing file path, then the
inline argument text (arguments joined by spaces), then piped standard
input, first match wins; with no argument and an interactive terminal,
`getCodeToExecute` errors (usage message and exit 1) and `main` writes
no temp execution file — the directory holds exactly the cleanup
pass's result and no execution unit is produced. -/
theorem claim_C7 (st : ProcState) (unlinkFails : String → Bool) (pw io : Bool)
    (ts : Nat) (files : List String) :
    (st.argv = [] → st.stdinTTY = true →
      getCodeToExecute st = Except.error () ∧
        mainRun pw io st unlinkFails ts files =
          (cleanupOldTempFiles unlinkFails files, none))
    ∧ (∀ a rest, st.argv = a :: rest → st.fileExists a = true →
        getCodeToExecute st = Except.ok (st.readFile a))
    ∧ (∀ a rest, st.argv = a :: rest → st.fileExists a = false →
        getCodeToExecute st = Except.ok (String.intercalate spaceStr st.argv))
    ∧ (st.argv = [] → st.stdinTTY = false →
        getCodeToExecute st = Except.ok st.stdinData) := by
  refine ⟨?_, ?_, ?_, ?_⟩
  · intro h0 h1
    have hg : getCodeToExecute st = Except.error () := by
      unfold getCodeToExecute
      rw [h0]
      simp [h1]
    refine ⟨hg, ?_⟩
    by_cases hpw : pw = false ∧ io = false
    · simp [mainRun, hpw]
    · simp [mainRun, hpw, hg]
  · intro a rest ha hfe
    unfold getCodeToExecute
    rw [ha]
    simp [hfe]
  · intro a rest ha hfe
    unfold getCodeToExecute
    rw [ha]
    simp [hfe]
  · intro h0 h1
    unfold getCodeToExecute
    rw [h0]
    simp [h1]

/-- Process state with no argument, no piped input, interactive TTY. -/
def stNoInput : ProcState := ⟨[], fun _ => false, fun _ => spaceStr, true, spaceStr⟩

/-- Directory listing with two stale temp files and one unrelated file. -/
def demoFiles : List String := [".temp-execution-1.js", ".temp-execution-2.js", "notes.txt"]

/-- Witness for C7's no-input case. -/
theorem claim_C7_witness :
    getCodeToExecute stNoInput = Except.error () ∧
      mainRun true true stNoInput (fun _ => false) 42 demoFiles =
        (cleanupOldTempFiles (fun _ => false) demoFiles, none) :=
  (claim_C7 stNoInput (fun _ => false) true true 42 demoFiles).1 rfl rfl

/-- Raw source piped on standard input in the C2 witness. -/
def c2raw : String := "await page.reload();"

/-- Process state receiving source from piped standard input. -/
def stStdinInput : ProcState := ⟨[], fun _ => false, fun _ => spaceStr, false, c2raw⟩

/-- C2: for an invocation that resolves its input and writes its
execution unit, the directory afterwards is exactly the cleanup pass's
result plus the newly written file (cleanup runs before the write);
when every deletion succeeds, exactly one temp-pattern file remains,
namely this run's own; and a deletion failure is individual — every
stale temp file whose own unlink succeeds is removed regardless of
other files' failures. -/
theorem claim_C2 (pw io : Bool) (st : ProcState) (unlinkFails : String → Bool)
    (ts : Nat) (files : List String) (raw : String)
    (hpw : pw = true ∨ io = true)
    (hok : getCodeToExecute st = Except.ok raw) :
    (mainRun pw io st unlinkFails ts files).1 =
        writeFile (tempFileName ts) (cleanupOldTempFiles unlinkFails files)
    ∧ ((∀ f, unlinkFails f = false) →
        ((mainRun pw io st unlinkFails ts files).1.filter
          (fun f => isTempFileName f)) = [tempFileName ts])
    ∧ (∀ f, f ∈ files → isTempFileName f = true → unlinkFails f = false →
        f ∉ cleanupOldTempFiles unlinkFails files) := by
  have hguard : ¬(pw = false ∧ io = false) := by
    rcases hpw with h | h <;> simp [h]
  have hmain : mainRun pw io st unlinkFails ts files =
      (writeFile (tempFileName ts) (cleanupOldTempFiles unlinkFails files),
        some (wrapCodeIfNeeded raw)) := by
    simp [mainRun, hguard, hok]
  refine ⟨by rw [hmain], ?_, ?_⟩
  · intro hff
    rw [hmain]
    show (writeFile (tempFileName ts) (cleanupOldTempFiles unlinkFails files)).filter
        (fun f => isTempFileName f) = [tempFileName ts]
    unfold writeFile
    rw [List.filter_cons, if_pos (isTemp_tempFileName ts)]
    have hnil : ((cleanupOldTempFiles unlinkFails files).filter
        (fun f => f ≠ tempFileName ts)).filter (fun f => isTempFileName f) = [] := by
      rw [List.filter_eq_nil_iff]
      intro f hf
      have := cleanup_no_temp hff (List.mem_of_mem_filter hf)
      simp [this]
    rw [hnil]
  · intro f hfmem htemp hfail hmem
    rcases mem_cleanup.mp hmem with ⟨-, hcond⟩
    rw [if_pos htemp, hfail] at hcond
    exact absurd hcond (by simp)

/-- Witness for C2: with two stale temp files, no deletion failures and
stdin input, exactly the new run's file matches the pattern. -/
theorem claim_C2_witness :
    ((mainRun true true stStdinInput (fun _ => false) 99 demoFiles).1.filter
      (fun f => isTempFileName f)) = [tempFileName 99] :=
  ((claim_C2 true true stStdinInput (fun _ => false) 99 demoFiles c2raw
    (Or.inl rfl) rfl).2.1) (fun _ => rfl)

/-- C3: `detectDevServers` classifies a port reachable if and only if
its probe yields a response with status code below 500; a connection
failure or timeout classifies it unreachable; every probe promise
resolves (never rejects), so no probe failure ever raises past the
detector — the result is always the filtered, formatted list. -/
theorem claim_C3 (probe : Nat → ProbeOutcome) (customPorts : List Nat) :
    detectDevServers probe customPorts =
      ((allPorts customPorts).filter (fun p => classifyProbe (probe p))).map urlOf
    ∧ (∀ o : ProbeOutcome, probeStep o = Except.ok (classifyProbe o))
    ∧ (∀ o : ProbeOutcome, classifyProbe o = true ↔
        ∃ s, o = ProbeOutcome.response s ∧ s < 500) := by
  refine ⟨?_, probeStep_eq, ?_⟩
  · unfold detectDevServers
    rw [detectLoop_eq]
    simp
  · intro o
    cases o with
    | response s => simp [classifyProbe]
    | connError => simp [classifyProbe]
    | timeout => simp [classifyProbe]

/-- Network oracle for the C8 end-to-end scenario: only port 3000
answers (HTTP 200 on HEAD), every other port refuses the connection. -/
def scenarioProbe : Nat → ProbeOutcome :=
  fun p => if p = 3000 then ProbeOutcome.response 200 else ProbeOutcome.connError

/-- URL expected from the C8 scenario. -/
def scenarioURL : String := "http://localhost:3000"

/-- C8: the detector probes exactly the baseline ports unioned with the
extra ports, duplicates removed; every returned entry is the formatted
localhost URL of a reachable candidate; zero reachable ports yield the
empty list (the result is a total filter, never an error); and in the
scenario where only port 3000 answers with HTTP 200 it returns exactly
the one URL. -/
theorem claim_C8 (probe : Nat → ProbeOutcome) (customPorts : List Nat) :
    (allPorts customPorts).Nodup
    ∧ (∀ p, p ∈ allPorts customPorts ↔ (p ∈ commonPorts ∨ p ∈ customPorts))
    ∧ detectDevServers probe customPorts =
        ((allPorts customPorts).filter (fun p => classifyProbe (probe p))).map urlOf
    ∧ detectDevServers scenarioProbe [] = [scenarioURL] := by
  refine ⟨allPorts_nodup customPorts, allPorts_mem customPorts, ?_, by decide⟩
  unfold detectDevServers
  rw [detectLoop_eq]
  simp

/-- C9 counterexample: probes run sequentially (each `await`ed in the
`for` loop), so with every probe hanging to its timeout the whole scan
lasts the 500 ms timeout multiplied by the 13 candidate ports — not a
small constant multiple of the timeout. -/
theorem claim_C9_counterexample :
    scanDuration (fun _ => 1000) [] = PROBE_TIMEOUT * (allPorts []).length
    ∧ (allPorts []).length = 13
    ∧ 4 * PROBE_TIMEOUT < scanDuration (fun _ => 1000) [] := by
  refine ⟨by decide, by decide, by decide⟩

/-- C9 (amended): a hanging probe cannot affect any other port's
classification (the detector's result depends only on each port's own
outcome) and each probe individually completes within the 500 ms
timeout, but because the probes are awaited sequentially the whole
scan's duration is only bounded by the timeout multiplied by the
number of candidate ports. -/
theorem claim_C9 (probe : Nat → ProbeOutcome) (delay : Nat → Nat) (customPorts : List Nat) :
    detectDevServers probe customPorts =
      ((allPorts customPorts).filter (fun p => classifyProbe (probe p))).map urlOf
    ∧ (∀ d, probeDuration (delay d) ≤ PROBE_TIMEOUT)
    ∧ scanDuration delay customPorts ≤ PROBE_TIMEOUT * (allPorts customPorts).length := by
  refine ⟨?_, fun d => Nat.min_le_right _ _, ?_⟩
  · unfold detectDevServers
    rw [detectLoop_eq]
    simp
  · unfold scanDuration
    exact sum_map_le_mul (fun x _ => Nat.min_le_right _ _)

end PlaywrightPlugin
